import Mathlib

/-!
Verification of the statistics/filter pipeline of a flight-delay dashboard.

A pandas `DataFrame` is shallowly embedded as a `Frame`: a list of present
column names (`cols`) together with a list of records (`rows`).  A numeric
cell is an `Option ℚ`: `none` plays the role of a missing / NaN value (CSV
floats are embedded as exact rationals), and the pandas skip-NaN aggregation
rules (`mean`, `var`, `sum`, `quantile`, `groupby` key exclusion) are
reproduced explicitly on the `Option` layer.
-/

namespace FlightDelays

/-- Ascending insertion sort on rationals (the order pandas uses for
`quantile` and for `groupby` keys). -/
def sortQ (l : List ℚ) : List ℚ :=
  List.insertionSort (· ≤ ·) l

/-- Mean of a plain list of rationals (`sum / length`; `0` on `[]`, which is
only used behind non-emptiness guards). -/
def listMean (xs : List ℚ) : ℚ :=
  xs.sum / (xs.length : ℚ)

/-- pandas `Series.mean` (skipna): `none` when no valid value exists. -/
def meanOpt (xs : List (Option ℚ)) : Option ℚ :=
  let v := xs.filterMap id
  if v = [] then none else some (listMean v)

/-- Sum of squared deviations from the mean. -/
def ssd (xs : List ℚ) : ℚ :=
  (xs.map (fun x => (x - listMean xs) ^ 2)).sum

/-- pandas `Series.var` (skipna, `ddof = 1`): `none` with fewer than two
valid values. -/
def varOpt (xs : List (Option ℚ)) : Option ℚ :=
  let v := xs.filterMap id
  if v.length < 2 then none else some (ssd v / ((v.length : ℚ) - 1))

/-- pandas `Series.sum` (skipna): NaN entries contribute nothing, the
all-NaN / empty sum is `0`. -/
def nansum (xs : List (Option ℚ)) : ℚ :=
  (xs.filterMap id).sum

/-- pandas `Series.median` (skipna): `none` when no valid value exists. -/
def medianOpt (xs : List (Option ℚ)) : Option ℚ :=
  let v := sortQ (xs.filterMap id)
  if v = [] then none
  else if v.length % 2 = 1 then some (v.getD (v.length / 2) 0)
  else some ((v.getD (v.length / 2 - 1) 0 + v.getD (v.length / 2) 0) / 2)

/-- Maximum of two rationals, written out so that kernel reduction (used by
`decide` in witnesses) does not have to unfold order-instance towers. -/
def qmax (a b : ℚ) : ℚ := if a ≤ b then b else a

/-- Minimum of two rationals (same remark as `qmax`). -/
def qmin (a b : ℚ) : ℚ := if a ≤ b then a else b

/-- pandas `Series.quantile` with the default linear interpolation, on the
already-sorted list of valid values: position `h = (n-1)·q`, linear
interpolation between the neighbouring order statistics. -/
def quantileSorted (v : List ℚ) (q : ℚ) : ℚ :=
  let n := v.length
  let h : ℚ := ((n : ℚ) - 1) * q
  let k : ℕ := (⌊h⌋).toNat
  let a := v.getD k 0
  let b := v.getD (k + 1) a
  a + (h - (k : ℚ)) * (b - a)

/-- pandas `Series.quantile` (skipna): `none` (NaN) when no valid value. -/
def quantileOpt (xs : List (Option ℚ)) (q : ℚ) : Option ℚ :=
  let v := sortQ (xs.filterMap id)
  if v = [] then none else some (quantileSorted v q)

/-- pandas `Series.clip(lower, upper)` on one cell: NaN cells pass through
unchanged, a NaN bound is ignored, lower is applied before upper. -/
def clipCell (x : Option ℚ) (lo hi : Option ℚ) : Option ℚ :=
  x.map (fun v =>
    let v1 := match lo with | some l => qmax v l | none => v
    match hi with | some u => qmin v1 u | none => v1)

/-- The columns this dashboard reads or derives. -/
inductive Col where
  | SCHEDULED_DEPARTURE
  | DEPARTURE_DELAY
  | ARRIVAL_DELAY
  | WEATHER_DELAY
  | LATE_AIRCRAFT_DELAY
  | CANCELLED
  | DIVERTED
  | MONTH
  | DAY_OF_WEEK
  | AIRLINE
  | ORIGIN_AIRPORT
  | DESTINATION_AIRPORT
  | dep_hour
  | is_late_15
  | has_weather_delay
  | has_late_aircraft_delay
deriving DecidableEq, Repr

/-- One flight record.  Numeric cells are `Option ℚ` (`none` = NaN/missing);
code-derived boolean cells are `Bool`. -/
structure Row where
  SCHEDULED_DEPARTURE : Option ℚ
  DEPARTURE_DELAY : Option ℚ
  ARRIVAL_DELAY : Option ℚ
  WEATHER_DELAY : Option ℚ
  LATE_AIRCRAFT_DELAY : Option ℚ
  CANCELLED : Option ℚ
  DIVERTED : Option ℚ
  MONTH : Option ℚ
  DAY_OF_WEEK : Option ℚ
  AIRLINE : String
  ORIGIN_AIRPORT : String
  DESTINATION_AIRPORT : String
  dep_hour : Option ℚ
  is_late_15 : Bool
  has_weather_delay : Bool
  has_late_aircraft_delay : Bool
deriving DecidableEq, Repr

/-- A data table: the set of columns present, plus the records. -/
structure Frame where
  cols : List Col
  rows : List Row
deriving DecidableEq, Repr

/-- The empty `pd.DataFrame()`: no columns, no rows. -/
def emptyFrame : Frame := ⟨[], []⟩

/-- A row whose cells are all missing / default; concrete examples override
the fields they need. -/
def row0 : Row :=
  ⟨none, none, none, none, none, none, none, none, none, "", "", "", none,
    false, false, false⟩

/-- `apply_filters` of `pages/03_Statistische_Analyse.py`: returns a brand
new empty frame when the input is `None` or empty, otherwise applies each
non-empty selection as an `isin` filter (NaN cells never match). -/
def apply_filters (df : Option Frame) (months : List ℚ)
    (airlines origins destinations : List String) : Frame :=
  match df with
  | none => emptyFrame
  | some f =>
    if f.rows = [] then emptyFrame
    else
      let o1 := if months = [] then f.rows else
        f.rows.filter (fun r => match r.MONTH with
          | some m => decide (m ∈ months)
          | none => false)
      let o2 := if airlines = [] then o1 else
        o1.filter (fun r => decide (r.AIRLINE ∈ airlines))
      let o3 := if origins = [] then o2 else
        o2.filter (fun r => decide (r.ORIGIN_AIRPORT ∈ origins))
      let o4 := if destinations = [] then o3 else
        o3.filter (fun r => decide (r.DESTINATION_AIRPORT ∈ destinations))
      ⟨f.cols, o4⟩

/-- `apply_filters` of `pages/02_Visualisaties.py`: same cascade of `isin`
filters (the selections are globals there, modelled as arguments), but with
no guard for `None`/empty input — an untouched input is returned as is. -/
def apply_filters_viz (data : Frame) (months : List ℚ)
    (airlines origins destinations : List String) : Frame :=
  let o1 := if months = [] then data.rows else
    data.rows.filter (fun r => match r.MONTH with
      | some m => decide (m ∈ months)
      | none => false)
  let o2 := if airlines = [] then o1 else
    o1.filter (fun r => decide (r.AIRLINE ∈ airlines))
  let o3 := if origins = [] then o2 else
    o2.filter (fun r => decide (r.ORIGIN_AIRPORT ∈ origins))
  let o4 := if destinations = [] then o3 else
    o3.filter (fun r => decide (r.DESTINATION_AIRPORT ∈ destinations))
  ⟨data.cols, o4⟩

/-- `winsorize_delays`: unless the frame is empty or `pct ≤ 0`, clips
`ARRIVAL_DELAY` and then `DEPARTURE_DELAY` to the `[pct/100, 1 - pct/100]`
linear-interpolation quantiles of the respective column. -/
def winsorize_delays (f : Frame) (pct : ℚ) : Frame :=
  if f.rows = [] ∨ pct ≤ 0 then f
  else
    let arrCol := f.rows.map (·.ARRIVAL_DELAY)
    let aLo := quantileOpt arrCol (pct / 100)
    let aHi := quantileOpt arrCol (1 - pct / 100)
    let rows1 := f.rows.map (fun r =>
      { r with ARRIVAL_DELAY := clipCell r.ARRIVAL_DELAY aLo aHi })
    let depCol := rows1.map (·.DEPARTURE_DELAY)
    let dLo := quantileOpt depCol (pct / 100)
    let dHi := quantileOpt depCol (1 - pct / 100)
    let rows2 := rows1.map (fun r =>
      { r with DEPARTURE_DELAY := clipCell r.DEPARTURE_DELAY dLo dHi })
    ⟨f.cols, rows2⟩

/-! ### Grouping by departure hour -/

/-- The non-NaN `dep_hour` cells, in row order. -/
def depHourVals (f : Frame) : List ℚ :=
  f.rows.filterMap (·.dep_hour)

/-- The `groupby("dep_hour")` keys: distinct non-NaN values, ascending
(pandas sorts group keys; rows with a NaN key belong to no group). -/
def depHourKeys (f : Frame) : List ℚ :=
  sortQ (depHourVals f).dedup

/-- The rows of one `dep_hour` group. -/
def groupRows (f : Frame) (k : ℚ) : List Row :=
  f.rows.filter (fun r => decide (r.dep_hour = some k))

/-- `True ↦ 1, False ↦ 0` (how pandas averages a boolean column). -/
def boolToQ (b : Bool) : ℚ := if b then 1 else 0

/-! ### `hourly_summary` (both copies) -/

/-- One output row of `hourly_summary`; the two copies of the function fill
different subsets of these fields, and each `HourlyFrame.cols` records which
named columns its table actually has. -/
structure HourlyRow where
  dep_hour : ℚ
  mean_arr_delay : Option ℚ
  median_arr_delay : Option ℚ
  weather_share : ℚ
  late_aircraft_share : ℚ
  flights : ℕ
  weather_share_pct : ℚ
  late_aircraft_share_pct : ℚ
deriving DecidableEq, Repr

/-- An aggregated table: its column names and its group rows. -/
structure HourlyFrame where
  cols : List String
  rows : List HourlyRow
deriving DecidableEq, Repr

/-- A defaulted `HourlyRow`; each summary overrides the fields it computes. -/
def hourlyRow0 : HourlyRow := ⟨0, none, none, 0, 0, 0, 0, 0⟩

/-- `hourly_summary` of `pages/03_Statistische_Analyse.py`: on the empty
frame an empty table with an explicitly listed schema; otherwise one row per
`dep_hour` group with mean/median arrival delay, weather share, group size,
and a derived percentage column. -/
def hourly_summary (f : Frame) : HourlyFrame :=
  if f.rows = [] then
    ⟨["dep_hour", "mean_arr_delay", "median_arr_delay", "weather_share_pct",
      "flights"], []⟩
  else
    ⟨["dep_hour", "mean_arr_delay", "median_arr_delay", "weather_share",
      "flights", "weather_share_pct"],
      (depHourKeys f).map (fun k =>
        let g := groupRows f k
        let ws := listMean (g.map (fun r => boolToQ r.has_weather_delay))
        { hourlyRow0 with
            dep_hour := k
            mean_arr_delay := meanOpt (g.map (·.ARRIVAL_DELAY))
            median_arr_delay := medianOpt (g.map (·.ARRIVAL_DELAY))
            weather_share := ws
            flights := g.length
            weather_share_pct := ws * 100 })⟩

/-- `hourly_summary` of `pages/02_Visualisaties.py`: same aggregation plus
the late-aircraft share; here the empty-frame schema lists exactly the
columns the non-empty result has. -/
def hourly_summary_viz (f : Frame) : HourlyFrame :=
  if f.rows = [] then
    ⟨["dep_hour", "mean_arr_delay", "median_arr_delay", "weather_share",
      "late_aircraft_share", "flights", "weather_share_pct",
      "late_aircraft_share_pct"], []⟩
  else
    ⟨["dep_hour", "mean_arr_delay", "median_arr_delay", "weather_share",
      "late_aircraft_share", "flights", "weather_share_pct",
      "late_aircraft_share_pct"],
      (depHourKeys f).map (fun k =>
        let g := groupRows f k
        let ws := listMean (g.map (fun r => boolToQ r.has_weather_delay))
        let las := listMean (g.map (fun r => boolToQ r.has_late_aircraft_delay))
        { dep_hour := k
          mean_arr_delay := meanOpt (g.map (·.ARRIVAL_DELAY))
          median_arr_delay := medianOpt (g.map (·.ARRIVAL_DELAY))
          weather_share := ws
          late_aircraft_share := las
          flights := g.length
          weather_share_pct := ws * 100
          late_aircraft_share_pct := las * 100 })⟩

/-! ### Linear trend (`linear_trend_dep_hour`) -/

/-- The `{"slope": ..., "r2": ...}` result record; `none` is the `None` of
the "not applicable" outcome. -/
structure TrendResult where
  slope : Option ℚ
  r2 : Option ℚ
deriving DecidableEq, Repr

/-- `df["dep_hour"].nunique()`: distinct non-NaN values. -/
def nuniqueDepHour (f : Frame) : ℕ :=
  (depHourVals f).dedup.length

/-- The `(x, y)` arrays after the `np.isfinite(x) & np.isfinite(y)` mask:
rows where both `dep_hour` and `ARRIVAL_DELAY` are non-NaN, in order. -/
def finitePairs (f : Frame) : List (ℚ × ℚ) :=
  f.rows.filterMap (fun r => match r.dep_hour, r.ARRIVAL_DELAY with
    | some x, some y => some (x, y)
    | _, _ => none)

/-- Mean of the x components. -/
def meanX (ps : List (ℚ × ℚ)) : ℚ := listMean (ps.map Prod.fst)

/-- Mean of the y components. -/
def meanY (ps : List (ℚ × ℚ)) : ℚ := listMean (ps.map Prod.snd)

/-- Centered second moment of x: `Σ (x − x̄)²`. -/
def sxx (ps : List (ℚ × ℚ)) : ℚ :=
  (ps.map (fun p => (p.1 - meanX ps) ^ 2)).sum

/-- Centered cross moment: `Σ (x − x̄)(y − ȳ)`. -/
def sxy (ps : List (ℚ × ℚ)) : ℚ :=
  (ps.map (fun p => (p.1 - meanX ps) * (p.2 - meanY ps))).sum

/-- The slope component of `np.polyfit(x, y, 1)`: for non-constant x the
least-squares problem has the unique closed-form solution `sxy / sxx`
(minimality over all lines is proved for the claim; the inputs the pages
feed it have non-constant x). -/
def olsSlope (ps : List (ℚ × ℚ)) : ℚ := sxy ps / sxx ps

/-- The intercept component of `np.polyfit(x, y, 1)`: `ȳ − slope·x̄`. -/
def olsIntercept (ps : List (ℚ × ℚ)) : ℚ :=
  meanY ps - olsSlope ps * meanX ps

/-- `ss_tot = np.sum((y - np.mean(y)) ** 2)`. -/
def ssTot (ps : List (ℚ × ℚ)) : ℚ :=
  (ps.map (fun p => (p.2 - meanY ps) ^ 2)).sum

/-- Residual sum of squares of an arbitrary line `y = a·x + b`. -/
def ssResAt (ps : List (ℚ × ℚ)) (a b : ℚ) : ℚ :=
  (ps.map (fun p => (p.2 - (a * p.1 + b)) ^ 2)).sum

/-- `ss_res = np.sum((y - y_pred) ** 2)` for the fitted line. -/
def ssRes (ps : List (ℚ × ℚ)) : ℚ :=
  ssResAt ps (olsSlope ps) (olsIntercept ps)

/-- `linear_trend_dep_hour` of `pages/03_Statistische_Analyse.py`. -/
def linear_trend_dep_hour (f : Frame) : TrendResult :=
  if f.rows = [] ∨ nuniqueDepHour f < 2 then ⟨none, none⟩
  else if (finitePairs f).length < 2 then ⟨none, none⟩
  else
    ⟨some (olsSlope (finitePairs f)),
      if ssTot (finitePairs f) ≠ 0 then
        some (1 - ssRes (finitePairs f) / ssTot (finitePairs f))
      else none⟩

/-! ### Controlled trend (`controlled_trend`) -/

/-- The `(MONTH, DAY_OF_WEEK)` `groupby` key of a row (`none` when either
cell is NaN: such rows belong to no group). -/
def monthDowKey (r : Row) : Option (ℚ × ℚ) :=
  match r.MONTH, r.DAY_OF_WEEK with
  | some m, some d => some (m, d)
  | _, _ => none

/-- The skip-NaN mean of `ARRIVAL_DELAY` within one `(month, weekday)`
group (`transform("mean")` broadcasts this back to the group's rows). -/
def mdGroupMean (rows : List Row) (k : ℚ × ℚ) : Option ℚ :=
  meanOpt ((rows.filter (fun r => decide (monthDowKey r = some k))).map
    (·.ARRIVAL_DELAY))

/-- `arr - arr.groupby([MONTH, DAY_OF_WEEK]).transform("mean")` for one row:
NaN when the delay, the key, or the group mean is NaN. -/
def mdResidual (rows : List Row) (r : Row) : Option ℚ :=
  match r.ARRIVAL_DELAY, monthDowKey r with
  | some y, some k => (mdGroupMean rows k).map (fun m => y - m)
  | _, _ => none

/-- The masked `(dep_hour, residual)` pairs of `controlled_trend`. -/
def ctrlPairs (f : Frame) : List (ℚ × ℚ) :=
  f.rows.filterMap (fun r =>
    match r.dep_hour, mdResidual f.rows r with
    | some x, some y => some (x, y)
    | _, _ => none)

/-- `controlled_trend` of `pages/03_Statistische_Analyse.py`, embedded as a
fallible function: the result is `none` exactly when the Python code raises.
The guard evaluates left to right: `df.empty` short-circuits, but on a
non-empty frame `df["dep_hour"].nunique()` is evaluated *before* the
`needed.issubset(df.columns)` test, so a missing `dep_hour` column raises
`KeyError` there. -/
def controlled_trend (f : Frame) : Option TrendResult :=
  if f.rows = [] then some ⟨none, none⟩
  else if Col.dep_hour ∉ f.cols then none
  else if nuniqueDepHour f < 2 then some ⟨none, none⟩
  else if ¬(Col.dep_hour ∈ f.cols ∧ Col.ARRIVAL_DELAY ∈ f.cols ∧
      Col.MONTH ∈ f.cols ∧ Col.DAY_OF_WEEK ∈ f.cols) then
    some ⟨none, none⟩
  else if (ctrlPairs f).length < 2 then some ⟨none, none⟩
  else
    some ⟨some (olsSlope (ctrlPairs f)),
      if ssTot (ctrlPairs f) ≠ 0 then
        some (1 - ssRes (ctrlPairs f) / ssTot (ctrlPairs f))
      else none⟩

/-! ### One-way ANOVA (`anova_dep_hour`) -/

/-- The `{"f_stat": ..., "p_value": ..., "effect_size": ...}` record. -/
structure AnovaResult where
  f_stat : Option ℚ
  p_value : Option ℚ
  effect_size : Option ℚ
deriving DecidableEq, Repr

/-- `counts = grouped.size()`: the group size, NaN delays included. -/
def anovaCounts (f : Frame) (k : ℚ) : ℕ := (groupRows f k).length

/-- `means = grouped.mean()` (skip-NaN; NaN for an all-NaN group). -/
def anovaGroupMean (f : Frame) (k : ℚ) : Option ℚ :=
  meanOpt ((groupRows f k).map (·.ARRIVAL_DELAY))

/-- `overall_mean = df["ARRIVAL_DELAY"].mean()` over every row. -/
def anovaOverallMean (f : Frame) : Option ℚ :=
  meanOpt (f.rows.map (·.ARRIVAL_DELAY))

/-- `ss_between = ((means - overall_mean) ** 2 * counts).sum()` (a pandas
sum, so groups with a NaN mean are skipped). -/
def anovaSSBetween (f : Frame) : ℚ :=
  nansum ((depHourKeys f).map (fun k =>
    (anovaGroupMean f k).bind (fun m =>
      (anovaOverallMean f).map (fun om =>
        (m - om) ^ 2 * (anovaCounts f k : ℚ)))))

/-- `vars_ = grouped.var()` (skip-NaN, `ddof = 1`; NaN for a group with at
most one valid delay). -/
def anovaGroupVar (f : Frame) (k : ℚ) : Option ℚ :=
  varOpt ((groupRows f k).map (·.ARRIVAL_DELAY))

/-- `ss_within = (vars_ * (counts - 1)).sum()` (skip-NaN sum). -/
def anovaSSWithin (f : Frame) : ℚ :=
  nansum ((depHourKeys f).map (fun k =>
    (anovaGroupVar f k).map (fun v => v * ((anovaCounts f k : ℚ) - 1))))

/-- `df_between = len(means) - 1`. -/
def dfBetween (f : Frame) : ℕ := (depHourKeys f).length - 1

/-- `df_within = len(df) - len(means)` (an `int`, so it can be negative only
formally; the code checks `df_within <= 0`). -/
def dfWithin (f : Frame) : ℤ :=
  (f.rows.length : ℤ) - ((depHourKeys f).length : ℤ)

/-- `f_stat = (ss_between / df_between) / (ss_within / df_within)`. -/
def anovaF (f : Frame) : ℚ :=
  (anovaSSBetween f / (dfBetween f : ℚ)) / (anovaSSWithin f / (dfWithin f : ℚ))

/-- `anova_dep_hour` of `pages/03_Statistische_Analyse.py`.  SciPy is an
optional dependency guarded by `try/except`, modelled as an optional
survival function `sf`: with `sf = none` (import failed) the p-value is
`None`, otherwise it is `sf f_stat df_between df_within`. -/
def anova_dep_hour (sf : Option (ℚ → ℕ → ℕ → ℚ)) (f : Frame) : AnovaResult :=
  if f.rows = [] then ⟨none, none, none⟩
  else if (depHourKeys f).length < 2 then ⟨none, none, none⟩
  else if dfWithin f ≤ 0 ∨ anovaSSWithin f ≤ 0 then ⟨none, none, none⟩
  else
    ⟨some (anovaF f),
      sf.map (fun g => g (anovaF f) (dfBetween f) (dfWithin f).toNat),
      if 0 < anovaSSBetween f + anovaSSWithin f then
        some (anovaSSBetween f / (anovaSSBetween f + anovaSSWithin f))
      else none⟩

/-! ### Specification-side ANOVA quantities

The spec states the classic decomposition over the groups of a subset whose
delay and hour cells are all present (the §3 load invariant guarantees that
for every subset the pages form).  `allFinite` is that domain restriction;
on it the `Option`-layer skip-NaN code quantities above coincide with these
plain formulas. -/

/-- Every row has a non-NaN arrival delay and departure hour. -/
def allFinite (f : Frame) : Bool :=
  f.rows.all (fun r => r.ARRIVAL_DELAY.isSome && r.dep_hour.isSome)

/-- The delay values of one departure-hour group (on `allFinite` frames the
`getD 0` default is never used). -/
def groupArr (f : Frame) (k : ℚ) : List ℚ :=
  (groupRows f k).map (fun r => r.ARRIVAL_DELAY.getD 0)

/-- All delay values of the subset. -/
def allArr (f : Frame) : List ℚ :=
  f.rows.map (fun r => r.ARRIVAL_DELAY.getD 0)

/-- Sample variance (`0` for at most one observation, where the spec's
`(count − 1)·variance` term vanishes anyway). -/
def specVar (xs : List ℚ) : ℚ :=
  if xs.length ≤ 1 then 0 else ssd xs / ((xs.length : ℚ) - 1)

/-- Spec: between-group SS `= Σ group_count·(group_mean − overall_mean)²`. -/
def ssBetweenSpec (f : Frame) : ℚ :=
  ((depHourKeys f).map (fun k =>
    ((groupArr f k).length : ℚ) *
      (listMean (groupArr f k) - listMean (allArr f)) ^ 2)).sum

/-- Spec: within-group SS `= Σ (group_count − 1)·group_variance`. -/
def ssWithinSpec (f : Frame) : ℚ :=
  ((depHourKeys f).map (fun k =>
    (((groupArr f k).length : ℚ) - 1) * specVar (groupArr f k))).sum

/-! ### Pearson correlation (`safe_corr`) -/

/-- The columns `safe_corr` is embedded for: the float-valued ones (the
pages call it on delay columns; a non-numeric column would make
`df[[x, y]].corr()` drop the column and `.iloc[0, 1]` raise). -/
def numericCol (c : Col) : Bool :=
  match c with
  | .SCHEDULED_DEPARTURE | .DEPARTURE_DELAY | .ARRIVAL_DELAY
  | .WEATHER_DELAY | .LATE_AIRCRAFT_DELAY | .CANCELLED | .DIVERTED
  | .MONTH | .DAY_OF_WEEK | .dep_hour => true
  | _ => false

/-- The numeric cell of a column (defaults to NaN on the non-numeric
columns, which `numericCol` excludes). -/
def numCell (c : Col) (r : Row) : Option ℚ :=
  match c with
  | .SCHEDULED_DEPARTURE => r.SCHEDULED_DEPARTURE
  | .DEPARTURE_DELAY => r.DEPARTURE_DELAY
  | .ARRIVAL_DELAY => r.ARRIVAL_DELAY
  | .WEATHER_DELAY => r.WEATHER_DELAY
  | .LATE_AIRCRAFT_DELAY => r.LATE_AIRCRAFT_DELAY
  | .CANCELLED => r.CANCELLED
  | .DIVERTED => r.DIVERTED
  | .MONTH => r.MONTH
  | .DAY_OF_WEEK => r.DAY_OF_WEEK
  | .dep_hour => r.dep_hour
  | _ => none

/-- The pairwise-complete observations `pandas.DataFrame.corr` uses: rows
where both cells are non-NaN. -/
def corrPairs (f : Frame) (cx cy : Col) : List (ℚ × ℚ) :=
  f.rows.filterMap (fun r => match numCell cx r, numCell cy r with
    | some a, some b => some (a, b)
    | _, _ => none)

/-- The Pearson coefficient `sxy / √(sxx·syy)` the float code computes
(real-valued because of the square root; `ssTot` is the centered second
moment of the y components). -/
noncomputable def pearsonR (ps : List (ℚ × ℚ)) : ℝ :=
  (sxy ps : ℝ) / Real.sqrt ((sxx ps : ℝ) * (ssTot ps : ℝ))

/-- `safe_corr` of `pages/03_Statistische_Analyse.py`: `None` when the frame
is empty or a named column is absent; otherwise
`df[[col_x, col_y]].corr().iloc[0, 1]`, whose float value is NaN exactly
when a centered second moment over the paired rows vanishes (no pair, one
pair, or a constant column) — the `np.isnan` guard maps that to `None`. -/
noncomputable def safe_corr (f : Frame) (cx cy : Col) : Option ℝ :=
  if f.rows = [] ∨ cx ∉ f.cols ∨ cy ∉ f.cols then none
  else if sxx (corrPairs f cx cy) = 0 ∨ ssTot (corrPairs f cx cy) = 0 then none
  else some (pearsonR (corrPairs f cx cy))

/-! ### `load_flights` (flight_data.py)

The CSV read itself is external input; `load_flights` is embedded as the
cleaning/derivation pipeline applied to whatever table the read produced
(`pd.to_numeric(errors="coerce")` is the identity here because cells are
already `Option ℚ`, with `none` for missing or unparseable entries). -/

/-- Maximum on `ℤ`, spelled out (see `qmax`). -/
def zmax (a b : ℤ) : ℤ := if a ≤ b then b else a

/-- Minimum on `ℤ`, spelled out. -/
def zmin (a b : ℤ) : ℤ := if a ≤ b then a else b

/-- `(SCHEDULED_DEPARTURE // 100).clip(lower=0, upper=23).astype(int)` on
one non-null cell: floor-divide by 100, then clamp into `[0, 23]`. -/
def depHourQ (v : ℚ) : ℚ :=
  ((zmin (zmax ⌊v / 100⌋ 0) 23 : ℤ) : ℚ)

/-- `df = df[df["CANCELLED"] == 0]` (when the column exists; a NaN cell
compares unequal to 0 and is dropped). -/
def filterCancelled (cols : List Col) (rows : List Row) : List Row :=
  if Col.CANCELLED ∈ cols then
    rows.filter (fun r => decide (r.CANCELLED = some 0))
  else rows

/-- `df = df[df["DIVERTED"] == 0]` (when the column exists). -/
def filterDiverted (cols : List Col) (rows : List Row) : List Row :=
  if Col.DIVERTED ∈ cols then
    rows.filter (fun r => decide (r.DIVERTED = some 0))
  else rows

/-- `df.dropna(subset=...)` for whichever of `ARRIVAL_DELAY` and
`SCHEDULED_DEPARTURE` are present. -/
def dropNaArrSched (cols : List Col) (rows : List Row) : List Row :=
  rows.filter (fun r =>
    (!decide (Col.ARRIVAL_DELAY ∈ cols) || r.ARRIVAL_DELAY.isSome) &&
      (!decide (Col.SCHEDULED_DEPARTURE ∈ cols) || r.SCHEDULED_DEPARTURE.isSome))

/-- `df["dep_hour"] = (df["SCHEDULED_DEPARTURE"] // 100).clip(0, 23).astype(int)`
(when the column exists). -/
def deriveDepHour (cols : List Col) (rows : List Row) : List Row :=
  if Col.SCHEDULED_DEPARTURE ∈ cols then
    rows.map (fun r =>
      { r with dep_hour := r.SCHEDULED_DEPARTURE.map depHourQ })
  else rows

/-- `df["is_late_15"] = df["ARRIVAL_DELAY"] > 15` (NaN compares false). -/
def deriveIsLate (cols : List Col) (rows : List Row) : List Row :=
  if Col.ARRIVAL_DELAY ∈ cols then
    rows.map (fun r =>
      { r with is_late_15 := match r.ARRIVAL_DELAY with
          | some v => decide (15 < v)
          | none => false })
  else rows

/-- `df["has_weather_delay"] = df["WEATHER_DELAY"].fillna(0) > 0`. -/
def deriveWeather (cols : List Col) (rows : List Row) : List Row :=
  if Col.WEATHER_DELAY ∈ cols then
    rows.map (fun r =>
      { r with has_weather_delay := decide (0 < r.WEATHER_DELAY.getD 0) })
  else rows

/-- `df["has_late_aircraft_delay"] = df["LATE_AIRCRAFT_DELAY"].fillna(0) > 0`. -/
def deriveLateAircraft (cols : List Col) (rows : List Row) : List Row :=
  if Col.LATE_AIRCRAFT_DELAY ∈ cols then
    rows.map (fun r =>
      { r with has_late_aircraft_delay :=
          decide (0 < r.LATE_AIRCRAFT_DELAY.getD 0) })
  else rows

/-- Column assignment adds the column name if it is new. -/
def addCol (cols : List Col) (c : Col) : List Col :=
  if c ∈ cols then cols else cols ++ [c]

/-- The full `load_flights` cleaning pipeline of `flight_data.py`. -/
def load_flights (f : Frame) : Frame :=
  let rows7 :=
    deriveLateAircraft f.cols (deriveWeather f.cols (deriveIsLate f.cols
      (deriveDepHour f.cols (dropNaArrSched f.cols
        (filterDiverted f.cols (filterCancelled f.cols f.rows))))))
  let cols1 := if Col.SCHEDULED_DEPARTURE ∈ f.cols then
    addCol f.cols Col.dep_hour else f.cols
  let cols2 := if Col.ARRIVAL_DELAY ∈ f.cols then
    addCol cols1 Col.is_late_15 else cols1
  let cols3 := if Col.WEATHER_DELAY ∈ f.cols then
    addCol cols2 Col.has_weather_delay else cols2
  let cols4 := if Col.LATE_AIRCRAFT_DELAY ∈ f.cols then
    addCol cols3 Col.has_late_aircraft_delay else cols3
  ⟨cols4, rows7⟩

/-! ### Concrete frames used by counterexamples and witnesses -/

/-- An empty frame that still has a column (as a loaded-then-filtered-to-zero
table would). -/
def frameEmptyMonth : Frame := ⟨[Col.MONTH], []⟩

/-- Two rows with arrival/departure delays 0 and 10. -/
def frameTwoDelays : Frame :=
  ⟨[Col.ARRIVAL_DELAY, Col.DEPARTURE_DELAY],
    [{ row0 with
        ARRIVAL_DELAY := some 0
        DEPARTURE_DELAY := some 0 },
     { row0 with
        ARRIVAL_DELAY := some 10
        DEPARTURE_DELAY := some 10 }]⟩

/-- A loader input: schedule/arrival/cancellation columns, one clean row and
one cancelled row with a missing arrival delay. -/
def frameLoader : Frame :=
  ⟨[Col.SCHEDULED_DEPARTURE, Col.ARRIVAL_DELAY, Col.CANCELLED],
    [{ row0 with
        SCHEDULED_DEPARTURE := some 1530
        ARRIVAL_DELAY := some 12
        CANCELLED := some 0 },
     { row0 with
        SCHEDULED_DEPARTURE := some 900
        ARRIVAL_DELAY := none
        CANCELLED := some 1 }]⟩

/-- Two departure-hour groups of two flights each, with different means:
hours `[0, 0, 1, 1]`, delays `[0, 2, 10, 14]`. -/
def frameFourFlights : Frame :=
  ⟨[Col.dep_hour, Col.ARRIVAL_DELAY],
    [{ row0 with
        dep_hour := some 0
        ARRIVAL_DELAY := some 0 },
     { row0 with
        dep_hour := some 0
        ARRIVAL_DELAY := some 2 },
     { row0 with
        dep_hour := some 1
        ARRIVAL_DELAY := some 10 },
     { row0 with
        dep_hour := some 1
        ARRIVAL_DELAY := some 14 }]⟩

/-- A non-empty frame from which the `dep_hour` column is absent while the
other columns `controlled_trend` needs are present. -/
def frameNoDepHour : Frame :=
  ⟨[Col.ARRIVAL_DELAY, Col.MONTH, Col.DAY_OF_WEEK],
    [{ row0 with
        ARRIVAL_DELAY := some 5
        MONTH := some 1
        DAY_OF_WEEK := some 1 }]⟩

/-- A one-row frame with every filter dimension populated. -/
def frameOneFlight : Frame :=
  ⟨[Col.MONTH, Col.AIRLINE, Col.ORIGIN_AIRPORT, Col.DESTINATION_AIRPORT,
    Col.ARRIVAL_DELAY, Col.DEPARTURE_DELAY],
    [{ row0 with
        MONTH := some 1
        AIRLINE := "AA"
        ORIGIN_AIRPORT := "JFK"
        DESTINATION_AIRPORT := "LAX"
        ARRIVAL_DELAY := some 5
        DEPARTURE_DELAY := some 3 }]⟩

/-! ### C5 — filtering with all-empty selections -/

/-- C5 counterexample: on an empty table that still has columns, the
statistics page `apply_filters` returns the fresh, column-less
`pd.DataFrame()`, which is not equal to its input. -/
theorem claim_C5_counterexample :
    apply_filters (some frameEmptyMonth) [] [] [] [] ≠ frameEmptyMonth := by
  simp [apply_filters, frameEmptyMonth, emptyFrame]

/-- C5 (amended): with all selection sets empty, the visualisation page
`apply_filters` is the identity on every table, and the statistics page
`apply_filters` returns its input whenever that input is non-empty (an empty
input is collapsed to the empty column-less frame). -/
theorem claim_C5_amended (f g : Frame) (h : f.rows ≠ []) :
    apply_filters (some f) [] [] [] [] = f ∧
      apply_filters_viz g [] [] [] [] = g := by
  constructor
  · show (if f.rows = [] then emptyFrame else ⟨f.cols, f.rows⟩) = f
    rw [if_neg h]
  · rfl

/-- C5 witness: the amended statement at a concrete one-row frame. -/
theorem claim_C5_witness :
    frameOneFlight.rows ≠ [] ∧
      (apply_filters (some frameOneFlight) [] [] [] [] = frameOneFlight ∧
        apply_filters_viz frameEmptyMonth [] [] [] [] = frameEmptyMonth) :=
  ⟨by simp [frameOneFlight],
    claim_C5_amended frameOneFlight frameEmptyMonth (by simp [frameOneFlight])⟩

/-! ### C4 — winsorization idempotence -/

/-- C4 counterexample: winsorizing `frameTwoDelays` at `p = 10` (inside the
UI range 0–10) maps delays `{0, 10}` to `{1, 9}`; a second application
recomputes the interpolated percentiles on the clipped column and clips
further, to `{1.8, 8.2}`.  So applying twice differs from applying once. -/
theorem claim_C4_counterexample :
    winsorize_delays (winsorize_delays frameTwoDelays 10) 10 ≠
      winsorize_delays frameTwoDelays 10 := by
  have h1 : winsorize_delays frameTwoDelays 10 =
      ⟨[Col.ARRIVAL_DELAY, Col.DEPARTURE_DELAY],
        [{ row0 with
            ARRIVAL_DELAY := some 1
            DEPARTURE_DELAY := some 1 },
         { row0 with
            ARRIVAL_DELAY := some 9
            DEPARTURE_DELAY := some 9 }]⟩ := by
    norm_num [winsorize_delays, frameTwoDelays, row0, quantileOpt,
      quantileSorted, sortQ, clipCell, qmax, qmin, List.insertionSort,
      List.orderedInsert, List.cons_ne_nil]
  rw [h1]
  norm_num [winsorize_delays, row0, quantileOpt, quantileSorted, sortQ,
    clipCell, qmax, qmin, List.insertionSort, List.orderedInsert,
    List.cons_ne_nil, Frame.mk.injEq]

/-- C4 (amended): `winsorize_delays` returns its input unchanged — and is in
particular idempotent — when the table is empty or `p ≤ 0`; for `p > 0` it
is not idempotent in general, because the linear-interpolation percentiles
of the clipped column move strictly inside the previous cut points. -/
theorem claim_C4_amended (f : Frame) (pct : ℚ) (h : f.rows = [] ∨ pct ≤ 0) :
    winsorize_delays (winsorize_delays f pct) pct = winsorize_delays f pct := by
  have h1 : winsorize_delays f pct = f := by
    unfold winsorize_delays
    rw [if_pos h]
  rw [h1, h1]

/-- C4 witness: the amended statement at `p = 0` on a concrete frame. -/
theorem claim_C4_witness :
    (frameTwoDelays.rows = [] ∨ (0 : ℚ) ≤ 0) ∧
      winsorize_delays (winsorize_delays frameTwoDelays 0) 0 =
        winsorize_delays frameTwoDelays 0 :=
  ⟨Or.inr le_rfl, claim_C4_amended frameTwoDelays 0 (Or.inr le_rfl)⟩

/-! ### C6 — hourly_summary on the empty subset -/

/-- C6 counterexample: the statistics-page `hourly_summary` produces a
`weather_share` column for a non-empty input but omits it from the schema it
builds for the empty input, so the two schemas differ as sets. -/
theorem claim_C6_counterexample :
    "weather_share" ∈ (hourly_summary frameOneFlight).cols ∧
      "weather_share" ∉ (hourly_summary frameEmptyMonth).cols := by
  constructor
  · simp [hourly_summary, frameOneFlight]
  · simp [hourly_summary, frameEmptyMonth]

/-- C6 (amended): on an empty input both copies of `hourly_summary` return a
table with no group rows (no exception is modelled: the empty branch returns
before touching any column); the visualisation-page copy gives the empty
table exactly the schema of a non-empty result, while the statistics-page
copy's empty schema omits `weather_share` (its five listed columns are the
non-empty schema minus `weather_share`). -/
theorem claim_C6_amended (e f : Frame) (he : e.rows = []) (hf : f.rows ≠ []) :
    (hourly_summary e).rows = [] ∧
      (hourly_summary_viz e).rows = [] ∧
      (hourly_summary_viz e).cols = (hourly_summary_viz f).cols ∧
      (hourly_summary f).cols =
        ["dep_hour", "mean_arr_delay", "median_arr_delay", "weather_share",
          "flights", "weather_share_pct"] ∧
      (hourly_summary e).cols =
        ["dep_hour", "mean_arr_delay", "median_arr_delay",
          "weather_share_pct", "flights"] := by
  refine ⟨?_, ?_, ?_, ?_, ?_⟩ <;>
    simp [hourly_summary, hourly_summary_viz, he, hf]

/-- C6 witness: the amended statement at concrete empty and one-row
frames. -/
theorem claim_C6_witness :
    frameEmptyMonth.rows = [] ∧ frameOneFlight.rows ≠ [] ∧
      ((hourly_summary frameEmptyMonth).rows = [] ∧
        (hourly_summary_viz frameEmptyMonth).rows = [] ∧
        (hourly_summary_viz frameEmptyMonth).cols =
          (hourly_summary_viz frameOneFlight).cols ∧
        (hourly_summary frameOneFlight).cols =
          ["dep_hour", "mean_arr_delay", "median_arr_delay", "weather_share",
            "flights", "weather_share_pct"] ∧
        (hourly_summary frameEmptyMonth).cols =
          ["dep_hour", "mean_arr_delay", "median_arr_delay",
            "weather_share_pct", "flights"]) :=
  ⟨rfl, by simp [frameOneFlight],
    claim_C6_amended frameEmptyMonth frameOneFlight rfl
      (by simp [frameOneFlight])⟩

/-! ### C7 — the loader invariant -/

lemma mem_filterCancelled {cols : List Col} {l : List Row} {r : Row}
    (h : r ∈ filterCancelled cols l) :
    r ∈ l ∧ (Col.CANCELLED ∈ cols → r.CANCELLED = some 0) := by
  by_cases hc : Col.CANCELLED ∈ cols
  · rw [filterCancelled, if_pos hc, List.mem_filter] at h
    exact ⟨h.1, fun _ => of_decide_eq_true h.2⟩
  · rw [filterCancelled, if_neg hc] at h
    exact ⟨h, fun hmem => absurd hmem hc⟩

lemma mem_filterDiverted {cols : List Col} {l : List Row} {r : Row}
    (h : r ∈ filterDiverted cols l) :
    r ∈ l ∧ (Col.DIVERTED ∈ cols → r.DIVERTED = some 0) := by
  by_cases hc : Col.DIVERTED ∈ cols
  · rw [filterDiverted, if_pos hc, List.mem_filter] at h
    exact ⟨h.1, fun _ => of_decide_eq_true h.2⟩
  · rw [filterDiverted, if_neg hc] at h
    exact ⟨h, fun hmem => absurd hmem hc⟩

lemma mem_dropNaArrSched {cols : List Col} {l : List Row} {r : Row}
    (h : r ∈ dropNaArrSched cols l) :
    r ∈ l ∧ (Col.ARRIVAL_DELAY ∈ cols → r.ARRIVAL_DELAY.isSome = true) ∧
      (Col.SCHEDULED_DEPARTURE ∈ cols →
        r.SCHEDULED_DEPARTURE.isSome = true) := by
  rw [dropNaArrSched, List.mem_filter, Bool.and_eq_true] at h
  refine ⟨h.1, fun hA => ?_, fun hS => ?_⟩
  · have h2 := h.2.1
    rw [Bool.or_eq_true, Bool.not_eq_true', decide_eq_false_iff_not] at h2
    exact (h2.resolve_left (fun hn => hn hA))
  · have h2 := h.2.2
    rw [Bool.or_eq_true, Bool.not_eq_true', decide_eq_false_iff_not] at h2
    exact (h2.resolve_left (fun hn => hn hS))

lemma mem_deriveDepHour {cols : List Col} {l : List Row} {r : Row}
    (hS : Col.SCHEDULED_DEPARTURE ∈ cols) (h : r ∈ deriveDepHour cols l) :
    ∃ s ∈ l, r = { s with dep_hour := s.SCHEDULED_DEPARTURE.map depHourQ } := by
  rw [deriveDepHour, if_pos hS, List.mem_map] at h
  obtain ⟨s, hs, hr⟩ := h
  exact ⟨s, hs, hr.symm⟩

lemma mem_deriveIsLate {cols : List Col} {l : List Row} {r : Row}
    (h : r ∈ deriveIsLate cols l) :
    ∃ s ∈ l, r.CANCELLED = s.CANCELLED ∧ r.DIVERTED = s.DIVERTED ∧
      r.ARRIVAL_DELAY = s.ARRIVAL_DELAY ∧
      r.SCHEDULED_DEPARTURE = s.SCHEDULED_DEPARTURE ∧
      r.dep_hour = s.dep_hour := by
  by_cases hc : Col.ARRIVAL_DELAY ∈ cols
  · rw [deriveIsLate, if_pos hc, List.mem_map] at h
    obtain ⟨s, hs, hr⟩ := h
    exact ⟨s, hs, by rw [hr.symm]; exact ⟨rfl, rfl, rfl, rfl, rfl⟩⟩
  · rw [deriveIsLate, if_neg hc] at h
    exact ⟨r, h, rfl, rfl, rfl, rfl, rfl⟩

lemma mem_deriveWeather {cols : List Col} {l : List Row} {r : Row}
    (h : r ∈ deriveWeather cols l) :
    ∃ s ∈ l, r.CANCELLED = s.CANCELLED ∧ r.DIVERTED = s.DIVERTED ∧
      r.ARRIVAL_DELAY = s.ARRIVAL_DELAY ∧
      r.SCHEDULED_DEPARTURE = s.SCHEDULED_DEPARTURE ∧
      r.dep_hour = s.dep_hour := by
  by_cases hc : Col.WEATHER_DELAY ∈ cols
  · rw [deriveWeather, if_pos hc, List.mem_map] at h
    obtain ⟨s, hs, hr⟩ := h
    exact ⟨s, hs, by rw [hr.symm]; exact ⟨rfl, rfl, rfl, rfl, rfl⟩⟩
  · rw [deriveWeather, if_neg hc] at h
    exact ⟨r, h, rfl, rfl, rfl, rfl, rfl⟩

lemma mem_deriveLateAircraft {cols : List Col} {l : List Row} {r : Row}
    (h : r ∈ deriveLateAircraft cols l) :
    ∃ s ∈ l, r.CANCELLED = s.CANCELLED ∧ r.DIVERTED = s.DIVERTED ∧
      r.ARRIVAL_DELAY = s.ARRIVAL_DELAY ∧
      r.SCHEDULED_DEPARTURE = s.SCHEDULED_DEPARTURE ∧
      r.dep_hour = s.dep_hour := by
  by_cases hc : Col.LATE_AIRCRAFT_DELAY ∈ cols
  · rw [deriveLateAircraft, if_pos hc, List.mem_map] at h
    obtain ⟨s, hs, hr⟩ := h
    exact ⟨s, hs, by rw [hr.symm]; exact ⟨rfl, rfl, rfl, rfl, rfl⟩⟩
  · rw [deriveLateAircraft, if_neg hc] at h
    exact ⟨r, h, rfl, rfl, rfl, rfl, rfl⟩

lemma clampHour_bounds (z : ℤ) : 0 ≤ zmin (zmax z 0) 23 ∧ zmin (zmax z 0) 23 ≤ 23 := by
  unfold zmin zmax
  split_ifs <;> omega

/-- C7: every record surviving `load_flights` has `CANCELLED = 0` and
`DIVERTED = 0` whenever those columns exist, a non-null arrival delay and
scheduled departure, and a `dep_hour` equal to the scheduled departure
floor-divided by 100 and clamped to `[0, 23]` — in particular an integer in
that range. -/
theorem claim_C7 (f : Frame) (hA : Col.ARRIVAL_DELAY ∈ f.cols)
    (hS : Col.SCHEDULED_DEPARTURE ∈ f.cols) :
    ∀ r ∈ (load_flights f).rows,
      (Col.CANCELLED ∈ f.cols → r.CANCELLED = some 0) ∧
      (Col.DIVERTED ∈ f.cols → r.DIVERTED = some 0) ∧
      r.ARRIVAL_DELAY.isSome = true ∧
      ∃ v : ℚ, r.SCHEDULED_DEPARTURE = some v ∧
        r.dep_hour = some ((zmin (zmax ⌊v / 100⌋ 0) 23 : ℤ) : ℚ) ∧
        0 ≤ zmin (zmax ⌊v / 100⌋ 0) 23 ∧
        zmin (zmax ⌊v / 100⌋ 0) 23 ≤ 23 := by
  intro r hr
  have hr7 : r ∈ deriveLateAircraft f.cols (deriveWeather f.cols
      (deriveIsLate f.cols (deriveDepHour f.cols (dropNaArrSched f.cols
        (filterDiverted f.cols (filterCancelled f.cols f.rows)))))) := hr
  obtain ⟨r6, hr6, e1c, e1d, e1a, e1s, e1h⟩ := mem_deriveLateAircraft hr7
  obtain ⟨r5, hr5, e2c, e2d, e2a, e2s, e2h⟩ := mem_deriveWeather hr6
  obtain ⟨r4, hr4, e3c, e3d, e3a, e3s, e3h⟩ := mem_deriveIsLate hr5
  obtain ⟨r3, hr3, hre⟩ := mem_deriveDepHour hS hr4
  obtain ⟨hr2, hA3, hS3⟩ := mem_dropNaArrSched hr3
  obtain ⟨hr1, hDiv⟩ := mem_filterDiverted hr2
  obtain ⟨_, hCan⟩ := mem_filterCancelled hr1
  have ec : r.CANCELLED = r3.CANCELLED := by rw [e1c, e2c, e3c, hre]
  have ed : r.DIVERTED = r3.DIVERTED := by rw [e1d, e2d, e3d, hre]
  have ea : r.ARRIVAL_DELAY = r3.ARRIVAL_DELAY := by rw [e1a, e2a, e3a, hre]
  have es : r.SCHEDULED_DEPARTURE = r3.SCHEDULED_DEPARTURE := by
    rw [e1s, e2s, e3s, hre]
  have eh : r.dep_hour = r3.SCHEDULED_DEPARTURE.map depHourQ := by
    rw [e1h, e2h, e3h, hre]
  obtain ⟨v, hv⟩ := Option.isSome_iff_exists.mp (hS3 hS)
  refine ⟨fun hc => by rw [ec]; exact hCan hc,
    fun hd => by rw [ed]; exact hDiv hd,
    by rw [ea]; exact hA3 hA,
    v, by rw [es, hv], ?_, clampHour_bounds ⌊v / 100⌋⟩
  rw [eh, hv]
  rfl

/-- C7 witness: the invariant theorem applied to a concrete loader input
with a clean row and a cancelled, arrival-delay-missing row. -/
theorem claim_C7_witness :
    Col.ARRIVAL_DELAY ∈ frameLoader.cols ∧
      Col.SCHEDULED_DEPARTURE ∈ frameLoader.cols ∧
      ∀ r ∈ (load_flights frameLoader).rows,
        (Col.CANCELLED ∈ frameLoader.cols → r.CANCELLED = some 0) ∧
        (Col.DIVERTED ∈ frameLoader.cols → r.DIVERTED = some 0) ∧
        r.ARRIVAL_DELAY.isSome = true ∧
        ∃ v : ℚ, r.SCHEDULED_DEPARTURE = some v ∧
          r.dep_hour = some ((zmin (zmax ⌊v / 100⌋ 0) 23 : ℤ) : ℚ) ∧
          0 ≤ zmin (zmax ⌊v / 100⌋ 0) 23 ∧
          zmin (zmax ⌊v / 100⌋ 0) 23 ≤ 23 :=
  ⟨by simp [frameLoader], by simp [frameLoader],
    claim_C7 frameLoader (by simp [frameLoader]) (by simp [frameLoader])⟩

/-! ### List and Option helper lemmas -/

lemma lsum_add {α : Type} (l : List α) (f g : α → ℚ) :
    (l.map (fun a => f a + g a)).sum = (l.map f).sum + (l.map g).sum := by
  induction l with
  | nil => simp
  | cons x t ih =>
    simp only [List.map_cons, List.sum_cons, ih]
    ring

lemma lsum_mul_left {α : Type} (c : ℚ) (l : List α) (f : α → ℚ) :
    (l.map (fun a => c * f a)).sum = c * (l.map f).sum := by
  induction l with
  | nil => simp
  | cons x t ih =>
    simp only [List.map_cons, List.sum_cons, ih]
    ring

lemma lsum_const {α : Type} (l : List α) (c : ℚ) :
    (l.map (fun _ => c)).sum = (l.length : ℚ) * c := by
  induction l with
  | nil => simp
  | cons x t ih =>
    simp only [List.map_cons, List.sum_cons, List.length_cons, ih]
    push_cast
    ring

lemma lsum_nonneg {α : Type} (l : List α) (f : α → ℚ)
    (h : ∀ a ∈ l, 0 ≤ f a) : 0 ≤ (l.map f).sum := by
  apply List.sum_nonneg
  intro x hx
  obtain ⟨a, ha, rfl⟩ := List.mem_map.mp hx
  exact h a ha

lemma lsum_sq_eq_zero {α : Type} {l : List α} {f : α → ℚ}
    (hz : (l.map (fun a => f a ^ 2)).sum = 0) : ∀ a ∈ l, f a = 0 := by
  induction l with
  | nil => simp
  | cons x t ih =>
    simp only [List.map_cons, List.sum_cons] at hz
    have h1 : 0 ≤ f x ^ 2 := sq_nonneg _
    have h2 : 0 ≤ (t.map (fun a => f a ^ 2)).sum :=
      lsum_nonneg _ _ (fun a _ => sq_nonneg _)
    have hx : f x ^ 2 = 0 := by linarith
    have ht : (t.map (fun a => f a ^ 2)).sum = 0 := by linarith
    intro a ha
    rcases List.mem_cons.mp ha with rfl | ha2
    · exact sq_eq_zero_iff.mp hx
    · exact ih ht a ha2

lemma filterMap_eq_map_getD {α β : Type} (g : α → Option β) (d : β)
    (l : List α) (h : ∀ a ∈ l, (g a).isSome = true) :
    l.filterMap g = l.map (fun a => (g a).getD d) := by
  induction l with
  | nil => rfl
  | cons x t ih =>
    have hx := h x (List.mem_cons_self x t)
    obtain ⟨v, hv⟩ := Option.isSome_iff_exists.mp hx
    rw [List.filterMap_cons, List.map_cons, hv]
    simp only [Option.getD_some]
    rw [ih (fun a ha => h a (List.mem_cons_of_mem x ha))]

lemma meanOpt_of_isSome (xs : List (Option ℚ))
    (h : ∀ o ∈ xs, o.isSome = true) :
    meanOpt xs = if xs = [] then none
      else some (listMean (xs.map (fun o => o.getD 0))) := by
  simp only [meanOpt]
  rw [filterMap_eq_map_getD id 0 xs h]
  simp only [id_eq]
  by_cases hx : xs = []
  · subst hx; simp
  · rw [if_neg (fun hc => hx (List.map_eq_nil_iff.mp hc)), if_neg hx]

lemma varOpt_of_isSome (xs : List (Option ℚ))
    (h : ∀ o ∈ xs, o.isSome = true) :
    varOpt xs = if xs.length < 2 then none
      else some (ssd (xs.map (fun o => o.getD 0)) / ((xs.length : ℚ) - 1)) := by
  simp only [varOpt]
  rw [filterMap_eq_map_getD id 0 xs h]
  simp only [id_eq, List.length_map]

lemma nansum_eq_sum_getD (xs : List (Option ℚ)) :
    nansum xs = (xs.map (fun o => o.getD 0)).sum := by
  induction xs with
  | nil => rfl
  | cons x t ih =>
    cases x with
    | none =>
      simp only [nansum] at ih ⊢
      rw [show (none :: t).filterMap (id : Option ℚ → Option ℚ)
          = t.filterMap id from rfl]
      rw [ih, List.map_cons, List.sum_cons, Option.getD_none, zero_add]
    | some v =>
      simp only [nansum] at ih ⊢
      rw [show ((some v) :: t).filterMap (id : Option ℚ → Option ℚ)
          = v :: t.filterMap id from rfl]
      rw [List.sum_cons, ih, List.map_cons, List.sum_cons, Option.getD_some]

lemma nansum_nonneg (xs : List (Option ℚ))
    (h : ∀ o ∈ xs, ∀ v, o = some v → 0 ≤ v) : 0 ≤ nansum xs := by
  rw [nansum_eq_sum_getD]
  apply List.sum_nonneg
  intro x hx
  obtain ⟨o, ho, rfl⟩ := List.mem_map.mp hx
  cases o with
  | none => simp
  | some v => simpa using h _ ho v rfl

/-! ### Grouping lemmas -/

lemma mem_depHourKeys_iff {f : Frame} {k : ℚ} :
    k ∈ depHourKeys f ↔ ∃ r ∈ f.rows, r.dep_hour = some k := by
  unfold depHourKeys depHourVals sortQ
  rw [(List.perm_insertionSort (· ≤ ·) _).mem_iff, List.mem_dedup,
    List.mem_filterMap]

lemma mem_of_mem_groupRows {f : Frame} {k : ℚ} {r : Row}
    (h : r ∈ groupRows f k) : r ∈ f.rows ∧ r.dep_hour = some k := by
  rw [groupRows, List.mem_filter] at h
  exact ⟨h.1, of_decide_eq_true h.2⟩

lemma groupRows_ne_nil {f : Frame} {k : ℚ} (hk : k ∈ depHourKeys f) :
    groupRows f k ≠ [] := by
  obtain ⟨r, hr, hdep⟩ := mem_depHourKeys_iff.mp hk
  have hmem : r ∈ groupRows f k := by
    rw [groupRows, List.mem_filter]
    exact ⟨hr, by simp [hdep]⟩
  exact List.ne_nil_of_mem hmem

lemma rows_ne_nil_of_keys {f : Frame} (h2 : 2 ≤ (depHourKeys f).length) :
    f.rows ≠ [] := by
  intro hnil
  have h0 : depHourKeys f = [] := by
    unfold depHourKeys depHourVals sortQ
    rw [hnil]
    rfl
  rw [h0] at h2
  simp at h2

lemma allFinite_arr {f : Frame} (h : allFinite f = true) :
    ∀ r ∈ f.rows, r.ARRIVAL_DELAY.isSome = true := by
  intro r hr
  have h2 := List.all_eq_true.mp h r hr
  simp only [Bool.and_eq_true] at h2
  exact h2.1

lemma allFinite_hour {f : Frame} (h : allFinite f = true) :
    ∀ r ∈ f.rows, r.dep_hour.isSome = true := by
  intro r hr
  have h2 := List.all_eq_true.mp h r hr
  simp only [Bool.and_eq_true] at h2
  exact h2.2

/-! ### ANOVA bridge lemmas: code quantities = spec quantities on
`allFinite` frames -/

lemma anovaGroupMean_eq {f : Frame} {k : ℚ} (hfin : allFinite f = true)
    (hk : k ∈ depHourKeys f) :
    anovaGroupMean f k = some (listMean (groupArr f k)) := by
  unfold anovaGroupMean
  rw [meanOpt_of_isSome]
  · rw [if_neg (fun hc =>
      groupRows_ne_nil hk (List.map_eq_nil_iff.mp hc))]
    rw [List.map_map]
    rfl
  · intro o ho
    obtain ⟨r, hr, rfl⟩ := List.mem_map.mp ho
    exact allFinite_arr hfin r (mem_of_mem_groupRows hr).1

lemma anovaOverallMean_eq {f : Frame} (hfin : allFinite f = true)
    (hne : f.rows ≠ []) :
    anovaOverallMean f = some (listMean (allArr f)) := by
  unfold anovaOverallMean
  rw [meanOpt_of_isSome]
  · rw [if_neg (fun hc => hne (List.map_eq_nil_iff.mp hc))]
    rw [List.map_map]
    rfl
  · intro o ho
    obtain ⟨r, hr, rfl⟩ := List.mem_map.mp ho
    exact allFinite_arr hfin r hr

lemma anovaGroupVar_eq {f : Frame} (hfin : allFinite f = true) (k : ℚ) :
    anovaGroupVar f k = if (groupRows f k).length < 2 then none
      else some (ssd (groupArr f k) / (((groupRows f k).length : ℚ) - 1)) := by
  unfold anovaGroupVar
  rw [varOpt_of_isSome]
  · rw [List.length_map, List.map_map]
    rfl
  · intro o ho
    obtain ⟨r, hr, rfl⟩ := List.mem_map.mp ho
    exact allFinite_arr hfin r (mem_of_mem_groupRows hr).1

lemma groupArr_length {f : Frame} (k : ℚ) :
    (groupArr f k).length = (groupRows f k).length := by
  rw [groupArr, List.length_map]

lemma anovaSSBetween_eq {f : Frame} (hfin : allFinite f = true)
    (hne : f.rows ≠ []) : anovaSSBetween f = ssBetweenSpec f := by
  unfold anovaSSBetween ssBetweenSpec
  rw [nansum_eq_sum_getD, List.map_map]
  apply congrArg List.sum
  apply List.map_congr_left
  intro k hk
  simp only [Function.comp_apply]
  rw [anovaGroupMean_eq hfin hk, anovaOverallMean_eq hfin hne]
  show (listMean (groupArr f k) - listMean (allArr f)) ^ 2 *
      ((anovaCounts f k : ℚ)) = _
  rw [anovaCounts, ← groupArr_length]
  ring

lemma anovaSSWithin_eq {f : Frame} (hfin : allFinite f = true) :
    anovaSSWithin f = ssWithinSpec f := by
  unfold anovaSSWithin ssWithinSpec
  rw [nansum_eq_sum_getD, List.map_map]
  apply congrArg List.sum
  apply List.map_congr_left
  intro k _
  simp only [Function.comp_apply]
  rw [anovaGroupVar_eq hfin k]
  by_cases hlen : (groupRows f k).length < 2
  · rw [if_pos hlen]
    show (0 : ℚ) = _
    simp only [specVar]
    rw [if_pos (by rw [groupArr_length]; omega)]
    ring
  · rw [if_neg hlen]
    show ssd (groupArr f k) / (((groupRows f k).length : ℚ) - 1) *
        ((anovaCounts f k : ℚ) - 1) = _
    simp only [specVar]
    rw [if_neg (by rw [groupArr_length]; omega)]
    rw [anovaCounts, groupArr_length]
    ring

lemma ssBetweenSpec_nonneg (f : Frame) : 0 ≤ ssBetweenSpec f := by
  apply lsum_nonneg
  intro k _
  exact mul_nonneg (Nat.cast_nonneg _) (sq_nonneg _)

lemma anovaSSBetween_nonneg (f : Frame) : 0 ≤ anovaSSBetween f := by
  apply nansum_nonneg
  intro o ho v hv
  obtain ⟨k, _, rfl⟩ := List.mem_map.mp ho
  cases hm : anovaGroupMean f k with
  | none => rw [hm] at hv; simp at hv
  | some m =>
    cases ho2 : anovaOverallMean f with
    | none => rw [hm, ho2] at hv; simp at hv
    | some om =>
      rw [hm, ho2] at hv
      simp at hv
      subst hv
      positivity

/-! ### C1 — the ANOVA decomposition -/

/-- C1: on a subset whose delay/hour cells are all present (the §3 load
invariant), whenever there are at least two departure-hour groups, the
within degrees of freedom `n − g` are positive and the within sum of squares
is positive, `anova_dep_hour` returns exactly
`F = (SS_b / (g − 1)) / (SS_w / (n − g))` and
`η² = SS_b / (SS_b + SS_w)` built from the spec's group formulas; whenever
any of these preconditions fails it returns the all-`None` record. -/
theorem claim_C1 (sf : Option (ℚ → ℕ → ℕ → ℚ)) (f : Frame)
    (hfin : allFinite f = true) :
    (2 ≤ (depHourKeys f).length ∧ 0 < dfWithin f ∧ 0 < ssWithinSpec f →
      (anova_dep_hour sf f).f_stat =
        some ((ssBetweenSpec f / (((depHourKeys f).length : ℚ) - 1)) /
          (ssWithinSpec f / (dfWithin f : ℚ))) ∧
      (anova_dep_hour sf f).effect_size =
        some (ssBetweenSpec f / (ssBetweenSpec f + ssWithinSpec f))) ∧
    (¬(2 ≤ (depHourKeys f).length ∧ 0 < dfWithin f ∧ 0 < ssWithinSpec f) →
      anova_dep_hour sf f = ⟨none, none, none⟩) := by
  constructor
  · rintro ⟨hk2, hdf, hssw⟩
    have hne : f.rows ≠ [] := rows_ne_nil_of_keys hk2
    have hB := anovaSSBetween_eq hfin hne
    have hW := anovaSSWithin_eq hfin
    have hguard : ¬(dfWithin f ≤ 0 ∨ anovaSSWithin f ≤ 0) := by
      push_neg
      exact ⟨hdf, by rw [hW]; exact hssw⟩
    have hres : anova_dep_hour sf f =
        ⟨some (anovaF f),
          sf.map (fun g => g (anovaF f) (dfBetween f) (dfWithin f).toNat),
          if 0 < anovaSSBetween f + anovaSSWithin f then
            some (anovaSSBetween f / (anovaSSBetween f + anovaSSWithin f))
          else none⟩ := by
      unfold anova_dep_hour
      rw [if_neg hne, if_neg (by omega), if_neg hguard]
    rw [hres]
    constructor
    · show some (anovaF f) = _
      simp only [anovaF, dfBetween]
      rw [hB, hW]
      have h1 : (1 : ℕ) ≤ (depHourKeys f).length := by omega
      rw [Nat.cast_sub h1, Nat.cast_one]
    · show (if 0 < anovaSSBetween f + anovaSSWithin f then
          some (anovaSSBetween f / (anovaSSBetween f + anovaSSWithin f))
        else none) = _
      have hBpos := ssBetweenSpec_nonneg f
      rw [hB, hW, if_pos (by linarith)]
  · intro hn
    by_cases h1 : f.rows = []
    · unfold anova_dep_hour
      rw [if_pos h1]
    · by_cases h2 : (depHourKeys f).length < 2
      · unfold anova_dep_hour
        rw [if_neg h1, if_pos h2]
      · have hk2 : 2 ≤ (depHourKeys f).length := by omega
        have hW := anovaSSWithin_eq (f := f) hfin
        have hguard : dfWithin f ≤ 0 ∨ anovaSSWithin f ≤ 0 := by
          rcases not_and_or.mp hn with h | h
          · exact absurd hk2 h
          · rcases not_and_or.mp h with h | h
            · exact Or.inl (le_of_not_lt h)
            · exact Or.inr (by rw [hW]; exact le_of_not_lt h)
        unfold anova_dep_hour
        rw [if_neg h1, if_neg h2, if_pos hguard]

/-- C1 witness: the decomposition theorem applied to a concrete two-group
frame (hours `[0, 0, 1, 1]`, delays `[0, 2, 10, 14]`). -/
theorem claim_C1_witness :
    allFinite frameFourFlights = true ∧
      ((2 ≤ (depHourKeys frameFourFlights).length ∧
          0 < dfWithin frameFourFlights ∧
          0 < ssWithinSpec frameFourFlights →
        (anova_dep_hour none frameFourFlights).f_stat =
          some ((ssBetweenSpec frameFourFlights /
              (((depHourKeys frameFourFlights).length : ℚ) - 1)) /
            (ssWithinSpec frameFourFlights /
              (dfWithin frameFourFlights : ℚ))) ∧
        (anova_dep_hour none frameFourFlights).effect_size =
          some (ssBetweenSpec frameFourFlights /
            (ssBetweenSpec frameFourFlights + ssWithinSpec frameFourFlights))) ∧
      (¬(2 ≤ (depHourKeys frameFourFlights).length ∧
          0 < dfWithin frameFourFlights ∧
          0 < ssWithinSpec frameFourFlights) →
        anova_dep_hour none frameFourFlights = ⟨none, none, none⟩)) :=
  ⟨rfl, claim_C1 none frameFourFlights rfl⟩

/-! ### C9 — soft degradation without SciPy -/

/-- C9: on any frame satisfying the ANOVA preconditions, running with no
survival function available still returns the F-statistic and the effect
size, and the p-value is `None` (not a fabricated number). -/
theorem claim_C9 (f : Frame) (h2 : 2 ≤ (depHourKeys f).length)
    (hdf : 0 < dfWithin f) (hss : 0 < anovaSSWithin f) :
    (anova_dep_hour none f).f_stat = some (anovaF f) ∧
      (anova_dep_hour none f).p_value = none ∧
      (anova_dep_hour none f).effect_size =
        some (anovaSSBetween f / (anovaSSBetween f + anovaSSWithin f)) := by
  have hne : f.rows ≠ [] := rows_ne_nil_of_keys h2
  have hguard : ¬(dfWithin f ≤ 0 ∨ anovaSSWithin f ≤ 0) := by
    push_neg
    exact ⟨hdf, hss⟩
  unfold anova_dep_hour
  rw [if_neg hne, if_neg (by omega), if_neg hguard]
  refine ⟨rfl, rfl, ?_⟩
  have hB := anovaSSBetween_nonneg f
  show (if 0 < anovaSSBetween f + anovaSSWithin f then
      some (anovaSSBetween f / (anovaSSBetween f + anovaSSWithin f))
    else none) = _
  rw [if_pos (by linarith)]

/-! ### Evaluation of the ANOVA pipeline on `frameFourFlights` -/

lemma frameFour_keys : depHourKeys frameFourFlights = [0, 1] := by
  norm_num [depHourKeys, depHourVals, frameFourFlights, row0, sortQ,
    List.insertionSort, List.orderedInsert, List.dedup_cons_of_mem,
    List.dedup_cons_of_not_mem]

lemma frameFour_gmean0 : anovaGroupMean frameFourFlights 0 = some 1 := by
  norm_num [anovaGroupMean, meanOpt, listMean, groupRows, frameFourFlights,
    row0, List.filter_cons, List.filterMap_cons, List.cons_ne_nil]

lemma frameFour_gmean1 : anovaGroupMean frameFourFlights 1 = some 12 := by
  norm_num [anovaGroupMean, meanOpt, listMean, groupRows, frameFourFlights,
    row0, List.filter_cons, List.filterMap_cons, List.cons_ne_nil]

lemma frameFour_omean : anovaOverallMean frameFourFlights = some (13 / 2) := by
  norm_num [anovaOverallMean, meanOpt, listMean, frameFourFlights,
    row0, List.filterMap_cons, List.cons_ne_nil]

lemma frameFour_count0 : anovaCounts frameFourFlights 0 = 2 := by
  norm_num [anovaCounts, groupRows, frameFourFlights, row0, List.filter_cons]

lemma frameFour_count1 : anovaCounts frameFourFlights 1 = 2 := by
  norm_num [anovaCounts, groupRows, frameFourFlights, row0, List.filter_cons]

lemma frameFour_ssB : anovaSSBetween frameFourFlights = 121 := by
  rw [anovaSSBetween, frameFour_keys]
  norm_num [nansum, frameFour_gmean0, frameFour_gmean1, frameFour_omean,
    frameFour_count0, frameFour_count1, List.filterMap_cons]

lemma frameFour_ssW : anovaSSWithin frameFourFlights = 10 := by
  norm_num [anovaSSWithin, anovaGroupVar, anovaCounts, varOpt, ssd, listMean,
    nansum, groupRows, depHourKeys, depHourVals, frameFourFlights, row0, sortQ,
    List.insertionSort, List.orderedInsert, List.dedup_cons_of_mem,
    List.dedup_cons_of_not_mem, List.filter_cons, List.filterMap_cons]

lemma frameFour_dfW : dfWithin frameFourFlights = 2 := by
  rw [dfWithin, frameFour_keys]
  norm_num [frameFourFlights]

lemma frameFour_effect :
    (anova_dep_hour none frameFourFlights).effect_size = some (121 / 131) := by
  have hrows : ¬(frameFourFlights.rows = []) := by simp [frameFourFlights]
  have hlen : ¬((depHourKeys frameFourFlights).length < 2) := by
    rw [frameFour_keys]
    norm_num
  have hguard : ¬(dfWithin frameFourFlights ≤ 0 ∨
      anovaSSWithin frameFourFlights ≤ 0) := by
    rw [frameFour_dfW, frameFour_ssW]
    norm_num
  unfold anova_dep_hour
  rw [if_neg hrows, if_neg hlen, if_neg hguard]
  show (if 0 < anovaSSBetween frameFourFlights + anovaSSWithin frameFourFlights
      then some (anovaSSBetween frameFourFlights /
        (anovaSSBetween frameFourFlights + anovaSSWithin frameFourFlights))
      else none) = _
  rw [frameFour_ssB, frameFour_ssW]
  norm_num

/-- C9 witness: the degradation theorem applied to `frameFourFlights`. -/
theorem claim_C9_witness :
    (2 ≤ (depHourKeys frameFourFlights).length ∧
        0 < dfWithin frameFourFlights ∧
        0 < anovaSSWithin frameFourFlights) ∧
      ((anova_dep_hour none frameFourFlights).f_stat =
          some (anovaF frameFourFlights) ∧
        (anova_dep_hour none frameFourFlights).p_value = none ∧
        (anova_dep_hour none frameFourFlights).effect_size =
          some (anovaSSBetween frameFourFlights /
            (anovaSSBetween frameFourFlights + anovaSSWithin frameFourFlights))) :=
  ⟨⟨by rw [frameFour_keys]; norm_num,
      by rw [frameFour_dfW]; norm_num,
      by rw [frameFour_ssW]; norm_num⟩,
    claim_C9 frameFourFlights
      (by rw [frameFour_keys]; norm_num)
      (by rw [frameFour_dfW]; norm_num)
      (by rw [frameFour_ssW]; norm_num)⟩

/-! ### C10 — the effect size lies in [0, 1) -/

/-- C10: whenever `anova_dep_hour` returns a numeric effect size (its
preconditions hold, so the within sum of squares is positive), that effect
size is nonnegative and strictly below 1. -/
theorem claim_C10 (sf : Option (ℚ → ℕ → ℕ → ℚ)) (f : Frame) (e : ℚ)
    (h : (anova_dep_hour sf f).effect_size = some e) : 0 ≤ e ∧ e < 1 := by
  by_cases h1 : f.rows = []
  · unfold anova_dep_hour at h
    rw [if_pos h1] at h
    simp at h
  · by_cases h2 : (depHourKeys f).length < 2
    · unfold anova_dep_hour at h
      rw [if_neg h1, if_pos h2] at h
      simp at h
    · by_cases h3 : dfWithin f ≤ 0 ∨ anovaSSWithin f ≤ 0
      · unfold anova_dep_hour at h
        rw [if_neg h1, if_neg h2, if_pos h3] at h
        simp at h
      · unfold anova_dep_hour at h
        rw [if_neg h1, if_neg h2, if_neg h3] at h
        have hW : 0 < anovaSSWithin f := by
          push_neg at h3
          exact h3.2
        have hB := anovaSSBetween_nonneg f
        have hpos : 0 < anovaSSBetween f + anovaSSWithin f := by linarith
        change (if 0 < anovaSSBetween f + anovaSSWithin f then
            some (anovaSSBetween f / (anovaSSBetween f + anovaSSWithin f))
          else none) = some e at h
        rw [if_pos hpos] at h
        simp only [Option.some.injEq] at h
        subst h
        constructor
        · exact div_nonneg hB (le_of_lt hpos)
        · rw [div_lt_one hpos]
          linarith

/-- C10 witness: on `frameFourFlights` the effect size is `121/131`, which
the theorem places in `[0, 1)`. -/
theorem claim_C10_witness :
    0 ≤ (121 / 131 : ℚ) ∧ (121 / 131 : ℚ) < 1 :=
  claim_C10 none frameFourFlights (121 / 131) frameFour_effect

/-! ### Least-squares lemmas for the linear trend -/

lemma lsum_sub_mean {α : Type} (l : List α) (g : α → ℚ) (hne : l ≠ []) :
    (l.map (fun a => g a - listMean (l.map g))).sum = 0 := by
  have hn : (l.length : ℚ) ≠ 0 := by
    simpa using fun hc => hne (List.length_eq_zero.mp hc)
  calc (l.map (fun a => g a - listMean (l.map g))).sum
      = (l.map (fun a => g a + (-(listMean (l.map g))))).sum := by
        apply congrArg
        apply List.map_congr_left
        intro a _
        ring
    _ = (l.map g).sum + (l.map (fun _ => -(listMean (l.map g)))).sum :=
        lsum_add l g (fun _ => -(listMean (l.map g)))
    _ = (l.map g).sum + (l.length : ℚ) * (-(listMean (l.map g))) := by
        rw [lsum_const]
    _ = 0 := by
        rw [listMean, List.length_map]
        field_simp
        ring

lemma sum_centered_y (ps : List (ℚ × ℚ)) (hne : ps ≠ []) :
    (ps.map (fun p => p.2 - meanY ps)).sum = 0 :=
  lsum_sub_mean ps Prod.snd hne

lemma sum_centered_x (ps : List (ℚ × ℚ)) (hne : ps ≠ []) :
    (ps.map (fun p => p.1 - meanX ps)).sum = 0 :=
  lsum_sub_mean ps Prod.fst hne

lemma sxx_nonneg (ps : List (ℚ × ℚ)) : 0 ≤ sxx ps :=
  lsum_nonneg _ _ (fun _ _ => sq_nonneg _)

lemma sxx_pos (ps : List (ℚ × ℚ))
    (hx : ∃ p ∈ ps, ∃ q ∈ ps, p.1 ≠ q.1) : 0 < sxx ps := by
  rcases eq_or_lt_of_le (sxx_nonneg ps) with heq | h
  · exfalso
    obtain ⟨p, hp, q, hq, hpq⟩ := hx
    have heq2 : (ps.map (fun p => (p.1 - meanX ps) ^ 2)).sum = 0 := heq.symm
    have hall := lsum_sq_eq_zero heq2
    have h1 := hall p hp
    have h2 := hall q hq
    apply hpq
    linarith
  · exact h

lemma ols_resid_sum (ps : List (ℚ × ℚ)) (hne : ps ≠ []) :
    (ps.map (fun p => p.2 - (olsSlope ps * p.1 + olsIntercept ps))).sum = 0 := by
  calc (ps.map (fun p => p.2 - (olsSlope ps * p.1 + olsIntercept ps))).sum
      = (ps.map (fun p => (p.2 - meanY ps) +
          (-(olsSlope ps)) * (p.1 - meanX ps))).sum := by
        apply congrArg
        apply List.map_congr_left
        intro p _
        rw [olsIntercept]
        ring
    _ = (ps.map (fun p => p.2 - meanY ps)).sum +
        (ps.map (fun p => (-(olsSlope ps)) * (p.1 - meanX ps))).sum :=
        lsum_add _ _ _
    _ = 0 := by
        rw [sum_centered_y ps hne, lsum_mul_left, sum_centered_x ps hne]
        ring

lemma ols_resid_dot_centered_x (ps : List (ℚ × ℚ)) (hsxx : sxx ps ≠ 0) :
    (ps.map (fun p => (p.2 - (olsSlope ps * p.1 + olsIntercept ps)) *
      (p.1 - meanX ps))).sum = 0 := by
  calc (ps.map (fun p => (p.2 - (olsSlope ps * p.1 + olsIntercept ps)) *
        (p.1 - meanX ps))).sum
      = (ps.map (fun p => (p.1 - meanX ps) * (p.2 - meanY ps) +
          (-(olsSlope ps)) * ((p.1 - meanX ps) ^ 2))).sum := by
        apply congrArg
        apply List.map_congr_left
        intro p _
        rw [olsIntercept]
        ring
    _ = (ps.map (fun p => (p.1 - meanX ps) * (p.2 - meanY ps))).sum +
        (ps.map (fun p => (-(olsSlope ps)) * ((p.1 - meanX ps) ^ 2))).sum :=
        lsum_add _ _ _
    _ = sxy ps + (-(olsSlope ps)) * sxx ps := by
        rw [lsum_mul_left]
        rfl
    _ = 0 := by
        rw [olsSlope]
        field_simp

lemma ols_resid_dot_x (ps : List (ℚ × ℚ)) (hne : ps ≠ [])
    (hsxx : sxx ps ≠ 0) :
    (ps.map (fun p => (p.2 - (olsSlope ps * p.1 + olsIntercept ps)) *
      p.1)).sum = 0 := by
  calc (ps.map (fun p => (p.2 - (olsSlope ps * p.1 + olsIntercept ps)) *
        p.1)).sum
      = (ps.map (fun p =>
          (p.2 - (olsSlope ps * p.1 + olsIntercept ps)) * (p.1 - meanX ps) +
          meanX ps * (p.2 - (olsSlope ps * p.1 + olsIntercept ps)))).sum := by
        apply congrArg
        apply List.map_congr_left
        intro p _
        ring
    _ = (ps.map (fun p =>
          (p.2 - (olsSlope ps * p.1 + olsIntercept ps)) *
            (p.1 - meanX ps))).sum +
        (ps.map (fun p => meanX ps *
          (p.2 - (olsSlope ps * p.1 + olsIntercept ps)))).sum :=
        lsum_add _ _ _
    _ = 0 := by
        rw [ols_resid_dot_centered_x ps hsxx, lsum_mul_left,
          ols_resid_sum ps hne]
        ring

/-- The fitted line minimizes the residual sum of squares over all lines:
the characterizing property of the ordinary least-squares fit. -/
lemma ols_min (ps : List (ℚ × ℚ)) (hne : ps ≠ []) (hsxx : sxx ps ≠ 0)
    (a b : ℚ) : ssRes ps ≤ ssResAt ps a b := by
  have hsplit : ssResAt ps a b =
      (ps.map (fun p =>
        (p.2 - (olsSlope ps * p.1 + olsIntercept ps)) ^ 2)).sum +
      ((ps.map (fun p => (-2 : ℚ) *
        ((p.2 - (olsSlope ps * p.1 + olsIntercept ps)) *
          ((a - olsSlope ps) * p.1 + (b - olsIntercept ps))))).sum +
      (ps.map (fun p =>
        ((a - olsSlope ps) * p.1 + (b - olsIntercept ps)) ^ 2)).sum) := by
    calc ssResAt ps a b
        = (ps.map (fun p => (p.2 - (a * p.1 + b)) ^ 2)).sum := rfl
      _ = (ps.map (fun p =>
            (p.2 - (olsSlope ps * p.1 + olsIntercept ps)) ^ 2 +
            ((-2 : ℚ) *
              ((p.2 - (olsSlope ps * p.1 + olsIntercept ps)) *
                ((a - olsSlope ps) * p.1 + (b - olsIntercept ps))) +
              ((a - olsSlope ps) * p.1 + (b - olsIntercept ps)) ^ 2))).sum := by
          apply congrArg
          apply List.map_congr_left
          intro p _
          ring
      _ = _ := by
          rw [lsum_add, lsum_add]
  have hmid : (ps.map (fun p => (-2 : ℚ) *
      ((p.2 - (olsSlope ps * p.1 + olsIntercept ps)) *
        ((a - olsSlope ps) * p.1 + (b - olsIntercept ps))))).sum = 0 := by
    rw [lsum_mul_left]
    have hsplit2 : (ps.map (fun p =>
        (p.2 - (olsSlope ps * p.1 + olsIntercept ps)) *
          ((a - olsSlope ps) * p.1 + (b - olsIntercept ps)))).sum =
        (ps.map (fun p => (a - olsSlope ps) *
          ((p.2 - (olsSlope ps * p.1 + olsIntercept ps)) * p.1))).sum +
        (ps.map (fun p => (b - olsIntercept ps) *
          (p.2 - (olsSlope ps * p.1 + olsIntercept ps)))).sum := by
      rw [← lsum_add]
      apply congrArg
      apply List.map_congr_left
      intro p _
      ring
    rw [hsplit2, lsum_mul_left, lsum_mul_left, ols_resid_dot_x ps hne hsxx,
      ols_resid_sum ps hne]
    ring
  have hsq : 0 ≤ (ps.map (fun p =>
      ((a - olsSlope ps) * p.1 + (b - olsIntercept ps)) ^ 2)).sum :=
    lsum_nonneg _ _ (fun p _ => sq_nonneg _)
  have hres : ssRes ps = (ps.map (fun p =>
      (p.2 - (olsSlope ps * p.1 + olsIntercept ps)) ^ 2)).sum := rfl
  rw [hsplit, hmid, ← hres]
  linarith

lemma nodup_pair {l : List ℚ} (h2 : 2 ≤ l.length) (hnd : l.Nodup) :
    ∃ a ∈ l, ∃ b ∈ l, a ≠ b := by
  rcases l with _ | ⟨a, _ | ⟨b, t⟩⟩
  · simp at h2
  · simp at h2
  · have hnotmem := (List.nodup_cons.mp hnd).1
    refine ⟨a, List.mem_cons_self _ _, b,
      List.mem_cons_of_mem _ (List.mem_cons_self _ _), fun hab => ?_⟩
    exact hnotmem (hab ▸ List.mem_cons_self b t)

lemma finitePairs_distinct_x {f : Frame} (hfin : allFinite f = true)
    (h2 : 2 ≤ nuniqueDepHour f) :
    ∃ p ∈ finitePairs f, ∃ q ∈ finitePairs f, p.1 ≠ q.1 := by
  obtain ⟨a, ha, b, hb, hab⟩ :=
    nodup_pair (l := (depHourVals f).dedup) h2 (List.nodup_dedup _)
  rw [List.mem_dedup] at ha hb
  obtain ⟨ra, hra, hda⟩ := List.mem_filterMap.mp ha
  obtain ⟨rb, hrb, hdb⟩ := List.mem_filterMap.mp hb
  obtain ⟨ya, hya⟩ :=
    Option.isSome_iff_exists.mp (allFinite_arr hfin ra hra)
  obtain ⟨yb, hyb⟩ :=
    Option.isSome_iff_exists.mp (allFinite_arr hfin rb hrb)
  refine ⟨(a, ya), ?_, (b, yb), ?_, by simpa using hab⟩
  · rw [finitePairs, List.mem_filterMap]
    exact ⟨ra, hra, by rw [hda, hya]⟩
  · rw [finitePairs, List.mem_filterMap]
    exact ⟨rb, hrb, by rw [hdb, hyb]⟩

/-! ### C2 — the unconditional linear trend -/

/-- C2: on a subset whose delay/hour cells are all present, the trend is
"not applicable" (both fields `None`) exactly on the empty subset, fewer
than 2 distinct departure hours, or fewer than 2 finite pairs; otherwise the
returned slope is the least-squares slope over the finite pairs — the fitted
line minimizes the residual sum of squares over all lines — and
`R² = 1 − SS_res / SS_tot`, `None` when `SS_tot = 0`. -/
theorem claim_C2 (f : Frame) (hfin : allFinite f = true) :
    (f.rows = [] ∨ nuniqueDepHour f < 2 ∨ (finitePairs f).length < 2 →
      linear_trend_dep_hour f = ⟨none, none⟩) ∧
    (¬(f.rows = [] ∨ nuniqueDepHour f < 2 ∨ (finitePairs f).length < 2) →
      (linear_trend_dep_hour f).slope = some (olsSlope (finitePairs f)) ∧
      (∀ a b : ℚ, ssRes (finitePairs f) ≤ ssResAt (finitePairs f) a b) ∧
      (linear_trend_dep_hour f).r2 =
        if ssTot (finitePairs f) ≠ 0 then
          some (1 - ssRes (finitePairs f) / ssTot (finitePairs f))
        else none) := by
  constructor
  · intro h
    rcases h with h | h | h
    · unfold linear_trend_dep_hour
      rw [if_pos (Or.inl h)]
    · unfold linear_trend_dep_hour
      rw [if_pos (Or.inr h)]
    · by_cases h1 : f.rows = [] ∨ nuniqueDepHour f < 2
      · unfold linear_trend_dep_hour
        rw [if_pos h1]
      · unfold linear_trend_dep_hour
        rw [if_neg h1, if_pos h]
  · intro hn
    push_neg at hn
    obtain ⟨h1, h2, h3⟩ := hn
    have hres : linear_trend_dep_hour f =
        ⟨some (olsSlope (finitePairs f)),
          if ssTot (finitePairs f) ≠ 0 then
            some (1 - ssRes (finitePairs f) / ssTot (finitePairs f))
          else none⟩ := by
      unfold linear_trend_dep_hour
      rw [if_neg (by push_neg; exact ⟨h1, by omega⟩),
        if_neg (by omega : ¬((finitePairs f).length < 2))]
    rw [hres]
    refine ⟨rfl, ?_, rfl⟩
    intro a b
    have hne : finitePairs f ≠ [] := by
      intro hc
      rw [hc] at h3
      simp at h3
    have hx := finitePairs_distinct_x hfin (by omega)
    exact ols_min _ hne (ne_of_gt (sxx_pos _ hx)) a b

/-- C2 witness: the trend theorem applied to `frameFourFlights`. -/
theorem claim_C2_witness :
    allFinite frameFourFlights = true ∧
      ((frameFourFlights.rows = [] ∨ nuniqueDepHour frameFourFlights < 2 ∨
          (finitePairs frameFourFlights).length < 2 →
        linear_trend_dep_hour frameFourFlights = ⟨none, none⟩) ∧
      (¬(frameFourFlights.rows = [] ∨ nuniqueDepHour frameFourFlights < 2 ∨
          (finitePairs frameFourFlights).length < 2) →
        (linear_trend_dep_hour frameFourFlights).slope =
          some (olsSlope (finitePairs frameFourFlights)) ∧
        (∀ a b : ℚ, ssRes (finitePairs frameFourFlights) ≤
          ssResAt (finitePairs frameFourFlights) a b) ∧
        (linear_trend_dep_hour frameFourFlights).r2 =
          if ssTot (finitePairs frameFourFlights) ≠ 0 then
            some (1 - ssRes (finitePairs frameFourFlights) /
              ssTot (finitePairs frameFourFlights))
          else none)) :=
  ⟨rfl, claim_C2 frameFourFlights rfl⟩

/-! ### C3 — controlled_trend raises on a missing dep_hour column -/

/-- C3: `controlled_trend` evaluated at a concrete non-empty table lacking
only the `dep_hour` column raises (`none` in the fallible embedding) instead
of returning the not-applicable record: the `nunique` access runs before the
column-presence check guarding it. -/
theorem claim_C3 : controlled_trend frameNoDepHour = none := by
  have h1 : ¬(frameNoDepHour.rows = []) := by simp [frameNoDepHour]
  have h2 : Col.dep_hour ∉ frameNoDepHour.cols := by simp [frameNoDepHour]
  unfold controlled_trend
  rw [if_neg h1, if_pos h2]

/-! ### C8 — safe Pearson correlation -/

lemma corrPairs_self (f : Frame) (cx : Col) :
    ∀ p ∈ corrPairs f cx cx, p.2 = p.1 := by
  intro p hp
  rw [corrPairs, List.mem_filterMap] at hp
  obtain ⟨r, _, hr⟩ := hp
  cases hcell : numCell cx r with
  | none =>
    rw [hcell] at hr
    simp at hr
  | some a =>
    rw [hcell] at hr
    simp only [Option.some.injEq] at hr
    rw [← hr]

lemma corr_self_ssTot (f : Frame) (cx : Col) :
    ssTot (corrPairs f cx cx) = sxx (corrPairs f cx cx) ∧
      sxy (corrPairs f cx cx) = sxx (corrPairs f cx cx) := by
  have hself := corrPairs_self f cx
  have hm : meanY (corrPairs f cx cx) = meanX (corrPairs f cx cx) := by
    rw [meanY, meanX]
    apply congrArg listMean
    apply List.map_congr_left
    intro p hp
    exact hself p hp
  constructor
  · rw [ssTot, sxx]
    apply congrArg
    apply List.map_congr_left
    intro p hp
    rw [hself p hp, hm]
  · rw [sxy, sxx]
    apply congrArg
    apply List.map_congr_left
    intro p hp
    rw [hself p hp, hm]
    ring

/-- C8: for numeric columns, `safe_corr` is `None` exactly when the table is
empty, a column is absent, or the float Pearson coefficient would be NaN
(a vanishing centered second moment over the paired rows — e.g. a constant
column); otherwise it returns the (finite) Pearson coefficient.  On a column
with itself the returned value is exactly 1 whenever the variance is
nonzero. -/
theorem claim_C8 (f : Frame) (cx cy : Col) (_hx : numericCol cx = true)
    (_hy : numericCol cy = true) :
    (safe_corr f cx cy = none ↔
      f.rows = [] ∨ cx ∉ f.cols ∨ cy ∉ f.cols ∨
        sxx (corrPairs f cx cy) = 0 ∨ ssTot (corrPairs f cx cy) = 0) ∧
    (∀ r : ℝ, safe_corr f cx cy = some r →
      r = pearsonR (corrPairs f cx cy)) ∧
    (cx ∈ f.cols → f.rows ≠ [] → sxx (corrPairs f cx cx) ≠ 0 →
      safe_corr f cx cx = some 1) := by
  refine ⟨?_, ?_, ?_⟩
  · unfold safe_corr
    by_cases h1 : f.rows = [] ∨ cx ∉ f.cols ∨ cy ∉ f.cols
    · rw [if_pos h1]
      constructor
      · intro _
        rcases h1 with h | h | h
        · exact Or.inl h
        · exact Or.inr (Or.inl h)
        · exact Or.inr (Or.inr (Or.inl h))
      · intro _
        rfl
    · rw [if_neg h1]
      by_cases h2 : sxx (corrPairs f cx cy) = 0 ∨ ssTot (corrPairs f cx cy) = 0
      · rw [if_pos h2]
        constructor
        · intro _
          rcases h2 with h | h
          · exact Or.inr (Or.inr (Or.inr (Or.inl h)))
          · exact Or.inr (Or.inr (Or.inr (Or.inr h)))
        · intro _
          rfl
      · rw [if_neg h2]
        constructor
        · intro hc
          exact absurd hc (by simp)
        · intro hc
          rcases hc with h | h | h | h | h

          · exact absurd (Or.inl h) h1
          · exact absurd (Or.inr (Or.inl h)) h1
          · exact absurd (Or.inr (Or.inr h)) h1
          · exact absurd (Or.inl h) h2
          · exact absurd (Or.inr h) h2
  · intro r hr
    unfold safe_corr at hr
    split_ifs at hr
    simp only [Option.some.injEq] at hr
    exact hr.symm
  · intro hmem hne hsxx
    obtain ⟨hTot, hXY⟩ := corr_self_ssTot f cx
    unfold safe_corr
    rw [if_neg (by push_neg; exact ⟨hne, hmem, hmem⟩)]
    rw [if_neg (by rw [hTot]; push_neg; exact ⟨hsxx, hsxx⟩)]
    congr 1
    rw [pearsonR, hTot, hXY]
    have hpos : 0 < sxx (corrPairs f cx cx) :=
      lt_of_le_of_ne (sxx_nonneg _) (Ne.symm hsxx)
    have hposR : (0 : ℝ) ≤ ((sxx (corrPairs f cx cx) : ℚ) : ℝ) := by
      exact_mod_cast le_of_lt hpos
    rw [Real.sqrt_mul_self hposR]
    rw [div_self (by exact_mod_cast hsxx)]

/-- C8 witness: the correlation theorem applied to the delay columns of a
concrete one-row frame. -/
theorem claim_C8_witness :
    numericCol Col.DEPARTURE_DELAY = true ∧
      numericCol Col.ARRIVAL_DELAY = true ∧
      ((safe_corr frameOneFlight Col.DEPARTURE_DELAY Col.ARRIVAL_DELAY = none ↔
        frameOneFlight.rows = [] ∨ Col.DEPARTURE_DELAY ∉ frameOneFlight.cols ∨
          Col.ARRIVAL_DELAY ∉ frameOneFlight.cols ∨
          sxx (corrPairs frameOneFlight Col.DEPARTURE_DELAY
            Col.ARRIVAL_DELAY) = 0 ∨
          ssTot (corrPairs frameOneFlight Col.DEPARTURE_DELAY
            Col.ARRIVAL_DELAY) = 0) ∧
      (∀ r : ℝ, safe_corr frameOneFlight Col.DEPARTURE_DELAY
          Col.ARRIVAL_DELAY = some r →
        r = pearsonR (corrPairs frameOneFlight Col.DEPARTURE_DELAY
          Col.ARRIVAL_DELAY)) ∧
      (Col.DEPARTURE_DELAY ∈ frameOneFlight.cols → frameOneFlight.rows ≠ [] →
        sxx (corrPairs frameOneFlight Col.DEPARTURE_DELAY
          Col.DEPARTURE_DELAY) ≠ 0 →
        safe_corr frameOneFlight Col.DEPARTURE_DELAY Col.DEPARTURE_DELAY =
          some 1)) :=
  ⟨rfl, rfl, claim_C8 frameOneFlight Col.DEPARTURE_DELAY Col.ARRIVAL_DELAY
    rfl rfl⟩

end FlightDelays
